import Mathlib

/-!
Verification development for the stripes-hub session bootstrapper.

The JavaScript sources (src/loginServices.js, src/StripesHub.js,
src/components/useExchangeCode.js and the unnamed loginServices variant)
are shallowly embedded below.  JavaScript values are modelled by the
inductive type `JVal`; `JVal.null` stands for both `null` and `undefined`
(the distinction is never load-bearing for the embedded functions).
Storage tiers (localforage, localStorage, sessionStorage) are modelled as
association lists, network fetches are parameterised by their parsed JSON
responses, and thrown exceptions are modelled with `Except`.
-/

/-- Model of a JavaScript value. Numbers are restricted to integers, which
covers every numeric value the embedded code manipulates (millisecond
timestamps and sentinel values). -/
inductive JVal : Type where
  | null
  | bool (b : Bool)
  | num (n : Int)
  | str (s : String)
  | arr (elems : List JVal)
  | obj (fields : List (String × JVal))

mutual

def JVal.beq : JVal → JVal → Bool
  | .null, .null => true
  | .bool x, .bool y => x == y
  | .num x, .num y => x == y
  | .str x, .str y => x == y
  | .arr xs, .arr ys => JVal.beqList xs ys
  | .obj xs, .obj ys => JVal.beqFields xs ys
  | _, _ => false

def JVal.beqList : List JVal → List JVal → Bool
  | [], [] => true
  | x :: xs, y :: ys => JVal.beq x y && JVal.beqList xs ys
  | _, _ => false

def JVal.beqFields : List (String × JVal) → List (String × JVal) → Bool
  | [], [] => true
  | (k, v) :: xs, (k', v') :: ys => k == k' && JVal.beq v v' && JVal.beqFields xs ys
  | _, _ => false

end

mutual

theorem JVal.beq_iff : (a b : JVal) → (JVal.beq a b = true ↔ a = b)
  | .null, b => by cases b <;> simp [JVal.beq]
  | .bool x, b => by cases b <;> simp [JVal.beq]
  | .num x, b => by cases b <;> simp [JVal.beq]
  | .str x, b => by cases b <;> simp [JVal.beq]
  | .arr xs, b => by
    cases b <;> simp [JVal.beq]
    exact JVal.beqList_iff xs _
  | .obj fs, b => by
    cases b <;> simp [JVal.beq]
    exact JVal.beqFields_iff fs _

theorem JVal.beqList_iff : (xs ys : List JVal) → (JVal.beqList xs ys = true ↔ xs = ys)
  | [], ys => by cases ys <;> simp [JVal.beqList]
  | x :: xs, ys => by
    cases ys with
    | nil => simp [JVal.beqList]
    | cons y ys => simp [JVal.beqList, JVal.beq_iff x y, JVal.beqList_iff xs ys]

theorem JVal.beqFields_iff : (xs ys : List (String × JVal)) →
    (JVal.beqFields xs ys = true ↔ xs = ys)
  | [], ys => by cases ys <;> simp [JVal.beqFields]
  | (k, v) :: xs, ys => by
    cases ys with
    | nil => simp [JVal.beqFields]
    | cons y ys =>
      obtain ⟨k', v'⟩ := y
      simp [JVal.beqFields, JVal.beq_iff v v', JVal.beqFields_iff xs ys,
        and_assoc]

end

instance : DecidableEq JVal := fun a b => decidable_of_iff _ (JVal.beq_iff a b)

namespace JVal

/-- JavaScript truthiness. Arrays and objects are always truthy. -/
def truthy : JVal → Bool
  | null => false
  | bool b => b
  | num n => n != 0
  | str s => s != ""
  | arr _ => true
  | obj _ => true

/-- Property read `v?.k` / `v[k]`: a missing field, or access on a
non-object, yields `null` (standing for JS `undefined`). -/
def jget : JVal → String → JVal
  | obj fields, k => (fields.lookup k).getD null
  | _, _ => null

/-- True exactly for object values. -/
def isObj : JVal → Bool
  | obj _ => true
  | _ => false

/-- True exactly for string values. -/
def isStr : JVal → Bool
  | str _ => true
  | _ => false

/-- Models `Number.isInteger`: in this embedding every represented number
is an integer, so the check holds exactly on numbers. -/
def isIntNum : JVal → Bool
  | num _ => true
  | _ => false

/-- Models JS property-key coercion `String(v)` for computed keys and
template interpolation. -/
def keyOf : JVal → String
  | str s => s
  | num n => toString n
  | bool b => toString b
  | null => "null"
  | arr _ => ""
  | obj _ => "[object Object]"

end JVal

/-- Property write on an object's field list: an existing key keeps its
position and gets the new value, a new key is appended. This matches JS
object-literal/assignment semantics (insertion order, later value wins). -/
def setField : List (String × JVal) → String → JVal → List (String × JVal)
  | [], k, v => [(k, v)]
  | (k', v') :: fs, k, v =>
    if k' = k then (k, v) :: fs else (k', v') :: setField fs k v

/-- Fields contributed by an object spread `{...v}`. Spreading `null` or
`undefined` contributes nothing; the embedded payloads never spread other
primitives. -/
def spreadFields : JVal → List (String × JVal)
  | JVal.obj fs => fs
  | _ => []

/-- Extend a field list with further assignments, later value wins. -/
def extendFields (fs : List (String × JVal)) (new : List (String × JVal)) :
    List (String × JVal) :=
  new.foldl (fun acc kv => setField acc kv.1 kv.2) fs

theorem lookup_setField (fs : List (String × JVal)) (k k' : String) (v : JVal) :
    ((setField fs k v).lookup k') = if k' = k then some v else fs.lookup k' := by
  induction fs with
  | nil =>
    by_cases h : k' = k
    · subst h; simp [setField, List.lookup]
    · have hb : (k' == k) = false := beq_eq_false_iff_ne.mpr h
      simp [setField, List.lookup, hb, h]
  | cons kv fs ih =>
    obtain ⟨k₀, v₀⟩ := kv
    by_cases h₀ : k₀ = k
    · subst h₀
      by_cases h : k' = k₀
      · subst h; simp [setField, List.lookup]
      · have hb : (k' == k₀) = false := beq_eq_false_iff_ne.mpr h
        simp [setField, List.lookup, hb, h]
    · by_cases h : k' = k₀
      · subst h
        simp [setField, h₀, List.lookup, Ne.symm h₀]
      · have hb : (k' == k₀) = false := beq_eq_false_iff_ne.mpr h
        simp [setField, h₀, List.lookup, hb, h, ih]

theorem jget_obj_setField (fs : List (String × JVal)) (k k' : String) (v : JVal) :
    (JVal.obj (setField fs k v)).jget k' =
      if k' = k then v else (JVal.obj fs).jget k' := by
  by_cases h : k' = k <;> simp [JVal.jget, lookup_setField, h]

/-! Constants from src/loginServices.js. -/

def SESSION_NAME : String := "okapiSess"
def IS_LOGGING_OUT : String := "@folio/stripes/core::Logout"
def RTR_TIMEOUT_EVENT : String := "@folio/stripes/core::RTRIdleSessionTimeout"
def TENANT_LOCAL_STORAGE_KEY : String := "tenant"
def LOGIN_RESPONSE : String := "loginResponse"
def HOST_APP_NAME : String := "folio_stripes"
def DISCOVERY_URL_KEY : String := "entitlementUrl"
def HOST_LOCATION_KEY : String := "hostLocation"
def REMOTE_LIST_KEY : String := "entitlements"

/-- Result of `spreadUserWithPerms`: the restructured `user` object and the
`perms` mapping. -/
structure UserPerms where
  user : JVal
  perms : JVal
deriving DecidableEq

/-- The permission-normalisation block of `spreadUserWithPerms`
(src/loginServices.js): when the list is a non-empty array, branch on the
type of its first element (`typeof list[0] === 'string'`) and fold the
mapped singletons as `Object.assign` does; otherwise the mapping stays
empty. -/
def permsFromList : JVal → JVal
  | JVal.arr (p :: rest) =>
    match p with
    | JVal.str _ =>
      JVal.obj (extendFields []
        ((p :: rest).map (fun q => (JVal.keyOf q, JVal.bool true))))
    | _ =>
      JVal.obj (extendFields []
        ((p :: rest).map (fun q =>
          (JVal.keyOf (q.jget "permissionName"), JVal.bool true))))
  | _ => JVal.obj []

/-- Embedding of `spreadUserWithPerms` (src/loginServices.js). The `user`
object is `\x7b id, username, ...personal \x7d`; the permission list is
normalised by `permsFromList`, the inline conditional of the source. -/
def spreadUserWithPerms (userWithPerms : JVal) : UserPerms :=
  let u := userWithPerms.jget "user"
  let user := JVal.obj (extendFields
    [("id", u.jget "id"), ("username", u.jget "username")]
    (spreadFields (u.jget "personal")))
  let list := (userWithPerms.jget "permissions").jget "permissions"
  ⟨user, permsFromList list⟩

/-! Calendar arithmetic modelling the JS `Date` conversions used by the
session store: `new Date(ms).toISOString()` and, inversely, parsing the
canonical ISO-8601 strings that this system itself produces. -/

/-- Left-pad a natural number with zeroes to the given width. -/
def padNum (width : Nat) (n : Nat) : String :=
  let s := toString n
  String.mk (List.replicate (width - s.length) '0') ++ s

/-- Convert days-since-epoch into a civil (year, month, day) triple,
following the standard Gregorian-calendar algorithm. -/
def civilFromDays (z0 : Int) : Int × Int × Int :=
  let z := z0 + 719468
  let era := z.fdiv 146097
  let doe := (z - era * 146097).toNat
  let yoe := (doe - doe / 1460 + doe / 36524 - doe / 146096) / 365
  let doy := doe - (365 * yoe + yoe / 4 - yoe / 100)
  let mp := (5 * doy + 2) / 153
  let d : Int := (doy : Int) - (153 * (mp : Int) + 2) / 5 + 1
  let m : Int := (mp : Int) + (if mp < 10 then 3 else -9)
  let y : Int := (yoe : Int) + era * 400 + (if m ≤ 2 then 1 else 0)
  (y, m, d)

/-- Inverse of `civilFromDays`: days since the epoch of a civil date. -/
def daysFromCivil (y m d : Int) : Int :=
  let y := y - (if m ≤ 2 then 1 else 0)
  let era := y.fdiv 400
  let yoe := y - era * 400
  let doy := (153 * (m + (if m > 2 then -3 else 9)) + 2).fdiv 5 + d - 1
  let doe := yoe * 365 + yoe.fdiv 4 - yoe.fdiv 100 + doy
  era * 146097 + doe

/-- Models `new Date(ms).toISOString()` for an integer millisecond
timestamp: the canonical `YYYY-MM-DDTHH:MM:SS.sssZ` rendering (with the
JS extended year format outside 0..9999). -/
def toISOString (ms : Int) : String :=
  let days := ms.fdiv 86400000
  let msOfDay := (ms - days * 86400000).toNat
  let (y, m, d) := civilFromDays days
  let yearStr :=
    if 0 ≤ y ∧ y ≤ 9999 then padNum 4 y.toNat
    else (if y < 0 then "-" else "+") ++ padNum 6 y.natAbs
  yearStr ++ "-" ++ padNum 2 m.toNat ++ "-" ++ padNum 2 d.toNat ++
    "T" ++ padNum 2 (msOfDay / 3600000) ++ ":" ++
    padNum 2 (msOfDay % 3600000 / 60000) ++ ":" ++
    padNum 2 (msOfDay % 60000 / 1000) ++ "." ++
    padNum 3 (msOfDay % 1000) ++ "Z"

/-- Take exactly `n` decimal digits off a character stream. -/
def takeDigits : Nat → List Char → Option (Nat × List Char)
  | 0, cs => some (0, cs)
  | n + 1, c :: cs =>
    if c.isDigit then
      match takeDigits n cs with
      | some (v, rest) => some ((c.toNat - 48) * 10 ^ n + v, rest)
      | none => none
    else none
  | _ + 1, [] => none

/-- Expect a literal character at the head of the stream. -/
def expectChar (c : Char) : List Char → Option (List Char)
  | c' :: cs => if c' = c then some cs else none
  | [] => none

/-- Parse the canonical `YYYY-MM-DDTHH:MM:SS.sssZ` rendering back into a
millisecond timestamp. Sessions only ever store strings produced by
`toISOString`, so the model of `Date.parse` covers exactly that shape;
anything else parses as `none`, standing for the JS `NaN` date. -/
def parseISO (s : String) : Option Int := do
  let cs := s.data
  let (y, cs) ← takeDigits 4 cs
  let cs ← expectChar '-' cs
  let (m, cs) ← takeDigits 2 cs
  let cs ← expectChar '-' cs
  let (d, cs) ← takeDigits 2 cs
  let cs ← expectChar 'T' cs
  let (hh, cs) ← takeDigits 2 cs
  let cs ← expectChar ':' cs
  let (mi, cs) ← takeDigits 2 cs
  let cs ← expectChar ':' cs
  let (ss, cs) ← takeDigits 2 cs
  let cs ← expectChar '.' cs
  let (mss, cs) ← takeDigits 3 cs
  let cs ← expectChar 'Z' cs
  if cs.isEmpty then
    some (daysFromCivil y m d * 86400000 +
      (hh * 3600000 + mi * 60000 + ss * 1000 + mss : Nat))
  else none

/-- Models `new Date(v).getTime()`: a number is taken as a timestamp, a
string is parsed; `JVal.null` stands for the `NaN` result of an invalid
date (it is never equal to any `JVal.num`). -/
def jsDateGetTime : JVal → JVal
  | JVal.num n => JVal.num n
  | JVal.str s =>
    match parseISO s with
    | some ms => JVal.num ms
    | none => JVal.null
  | _ => JVal.null

/-! Storage model. `LF` is the durable localforage tier (structured
values); the string tiers localStorage / sessionStorage are plain
association lists of strings. -/

/-- Durable structured storage tier (localforage). -/
structure LF where
  items : List (String × JVal)
deriving DecidableEq

/-- Models `localforage.getItem`: `null` when the key is absent. -/
def lfGet (st : LF) (k : String) : JVal := (st.items.lookup k).getD JVal.null

/-- Models `localforage.setItem`. -/
def lfSet (st : LF) (k : String) (v : JVal) : LF := ⟨setField st.items k v⟩

/-- Models `localforage.removeItem`. -/
def lfRemove (st : LF) (k : String) : LF := ⟨st.items.filter (fun kv => kv.1 ≠ k)⟩

/-- Truthiness of a string-tier read (`localStorage.getItem` returns
`null` when absent; the empty string is falsy). -/
def optTruthy : Option String → Bool
  | some s => s ≠ ""
  | none => false

/-- Models `localStorage.setItem` and friends on the string tiers. -/
def strSet (st : List (String × String)) (k v : String) : List (String × String) :=
  if st.any (fun kv => kv.1 = k) then
    st.map (fun kv => if kv.1 = k then (k, v) else kv)
  else st ++ [(k, v)]

/-- Models `localStorage.removeItem` on the string tiers. -/
def strRemove (st : List (String × String)) (k : String) : List (String × String) :=
  st.filter (fun kv => kv.1 ≠ k)

/-- The error message of `setTokenExpiry`'s `TypeError`. -/
def tokenExpiryTypeError : String :=
  "Did not receive \x7b atExpires: int, rtExpires: int \x7d"

/-- Embedding of `setTokenExpiry` (src/loginServices.js). On the failing
path the source throws the `TypeError` before any `setItem` call, so the
`Except.error` result carries no storage change; on the success path the
new `tokenExpiration` (the raw `te` fields plus the two derived ISO
strings) is merged onto the existing session record. -/
def setTokenExpiry (te : JVal) (st : LF) : Except String LF :=
  if (te.jget "atExpires").isIntNum && (te.jget "rtExpires").isIntNum then
    match te.jget "atExpires", te.jget "rtExpires" with
    | JVal.num a, JVal.num r =>
      let tokenExpiration := JVal.obj (extendFields (spreadFields te)
        [("accessTokenExpiration", JVal.str (toISOString a)),
         ("refreshTokenExpiration", JVal.str (toISOString r))])
      let sess := lfGet st SESSION_NAME
      let val := JVal.obj (extendFields (spreadFields sess)
        [("tokenExpiration", tokenExpiration)])
      Except.ok (lfSet st SESSION_NAME val)
    | _, _ => Except.error tokenExpiryTypeError
  else Except.error tokenExpiryTypeError

/-! Entitlement / discovery resolver (src/loginServices.js). The network
fetches are parameterised by their parsed JSON responses; `Except` models
the exceptions a malformed response would raise in the source (iterating
a non-array, assigning a property on a non-object, calling `.replace` on
a non-string). -/

/-- Elements of a JS iteration `v.forEach(...)`: fails like the source
does when `v` is not an array. -/
def jArr : JVal → Except String (List JVal)
  | JVal.arr xs => Except.ok xs
  | _ => Except.error "TypeError: forEach is not a function"

/-- Property assignment `v.k = w`: fails on non-objects (the embedded
modules run in strict mode). -/
def jsetE : JVal → String → JVal → Except String JVal
  | JVal.obj fs, k, v => Except.ok (JVal.obj (setField fs k v))
  | _, _, _ => Except.error "TypeError: cannot set property"

/-- Models `str.replace(pat, rep)` for the single-character pattern used
by the source: only the first occurrence is replaced. -/
def jsReplaceFirst (s : String) (c r : Char) : String :=
  String.mk (go s.data)
where
  go : List Char → List Char
    | [] => []
    | x :: xs => if x = c then r :: xs else x :: go xs

/-- Models `Array.from(new Set(xs))`: deduplicate keeping the first
occurrence of each element, in order. -/
def dedupFirst : List JVal → List JVal
  | [] => []
  | x :: xs => x :: dedupFirst (xs.filter (fun y => y ≠ x))
termination_by l => l.length
decreasing_by
  simp only [List.length_cons]
  exact Nat.lt_succ_of_le (List.length_filter_le _ _)

/-- Static configuration consumed by the loginServices pipeline. -/
structure HubConfig where
  hostUrl : String
  discoveryUrl : Option String
deriving DecidableEq

/-- JS truthiness of an optional configuration string (absent or empty is
falsy). -/
def strOptTruthy : Option String → Bool
  | some s => s ≠ ""
  | none => false

/-- Embedding of `fetchEntitlements` (src/loginServices.js): coalesce the
`uiModules` of every application descriptor into a map keyed by module id
(tagging each with its `applicationId`), then merge interface data and
`metadata.stripes` from the matching `uiModuleDescriptors`. -/
def fetchEntitlements (json : JVal) : Except String (List (String × JVal)) := do
  let elist ← jArr (json.jget "applicationDescriptors")
  elist.foldlM (fun entitlement application => do
    let uiModules ← jArr (application.jget "uiModules")
    let entitlement ← uiModules.foldlM (fun ent m => do
      let key := JVal.keyOf (m.jget "id")
      let ent := setField ent key m
      let v ← jsetE m "applicationId" (application.jget "id")
      pure (setField ent key v)) entitlement
    let descriptors ← jArr (application.jget "uiModuleDescriptors")
    descriptors.foldlM (fun ent m => do
      let key := JVal.keyOf (m.jget "id")
      let cur := (ent.lookup key).getD JVal.null
      if cur.truthy then do
        let cur ← jsetE cur "okapiInterfaces" (m.jget "requires")
        let cur ← jsetE cur "optionalOkapiInterfaces" (m.jget "optional")
        let cur := JVal.obj (extendFields (spreadFields cur)
          (spreadFields ((m.jget "metadata").jget "stripes")))
        pure (setField ent key cur)
      else pure ent) entitlement) []

/-- Shared knitting loop of the discovery fetchers: for every discovery
entry whose id has an entitlement, copy the entitlement record into the
result map and set its `location`; other entries are dropped. -/
def knitDiscovery (entitlement : List (String × JVal)) (entries : List JVal)
    (map : List (String × JVal)) : Except String (List (String × JVal)) :=
  match entries with
  | [] => Except.ok map
  | entry :: rest =>
    let key := JVal.keyOf (entry.jget "id")
    let cur := (entitlement.lookup key).getD JVal.null
    if cur.truthy then
      match jsetE cur "location" (entry.jget "location") with
      | Except.ok v => knitDiscovery entitlement rest (setField map key v)
      | Except.error e => Except.error e
    else knitDiscovery entitlement rest map

/-- Embedding of `fetchCustomDiscovery` (src/loginServices.js): one query
against `config.discoveryUrl`, knitted into the entitlement map. -/
def fetchCustomDiscovery (json : JVal) (entitlement : List (String × JVal)) :
    Except String (List (String × JVal)) := do
  let dlist ← jArr (json.jget "discovery")
  knitDiscovery entitlement dlist []

/-- Embedding of `fetchDefaultDiscovery` (src/loginServices.js): one query
per distinct `applicationId` found in the entitlement map, each knitted
into the same result. The per-application responses are supplied as a
function from the application id value to the parsed JSON body. -/
def fetchDefaultDiscovery (responses : JVal → JVal)
    (entitlement : List (String × JVal)) :
    Except String (List (String × JVal)) := do
  let applicationIds :=
    dedupFirst ((entitlement.map Prod.snd).map (fun m => m.jget "applicationId"))
  applicationIds.foldlM (fun map appId => do
    let dlist ← jArr ((responses appId).jget "discovery")
    knitDiscovery entitlement dlist map) []

/-- Embedding of `fetchDiscovery` (src/loginServices.js): select the
custom or the per-application discovery strategy, then rewrite each
result's `module` name from `folio_foo` to `@folio/foo` (only the first
underscore is replaced, as in the source). -/
def fetchDiscovery (config : HubConfig) (entitlement : List (String × JVal))
    (customResp : JVal) (defaultResps : JVal → JVal) :
    Except String (List (String × JVal)) := do
  let map ←
    if strOptTruthy config.discoveryUrl then fetchCustomDiscovery customResp entitlement
    else fetchDefaultDiscovery defaultResps entitlement
  map.mapM (fun kv => do
    match (kv.2).jget "name" with
    | JVal.str s => do
      let v ← jsetE kv.2 "module" (JVal.str ("@" ++ jsReplaceFirst s '_' '/'))
      pure (kv.1, v)
    | _ => Except.error "TypeError: replace is not a function")

/-- Embedding of `initStripes` (src/loginServices.js): fetch entitlements
and discovery, find the host entry (`folio_stripes-core`) among the
discovery values, cache the discovery URL, host name, host location and
the host-free remote list in localforage, and hand the host entry to the
asset loader (`loadStripes` only touches the DOM, so the returned value
models that hand-off). When the host entry is missing the source throws
before any of the four writes. -/
def initStripes (config : HubConfig) (entJson customResp : JVal)
    (defaultResps : JVal → JVal) (st : LF) : LF × Except String JVal :=
  match fetchEntitlements entJson with
  | Except.error e => (st, Except.error e)
  | Except.ok entitlement =>
    match fetchDiscovery config entitlement customResp defaultResps with
    | Except.error e => (st, Except.error e)
    | Except.ok discovery =>
      match (discovery.map Prod.snd).find?
          (fun entry => entry.jget "name" == JVal.str "folio_stripes-core") with
      | some stripesCore =>
        let st := lfSet st DISCOVERY_URL_KEY
          (JVal.str (config.discoveryUrl.getD config.hostUrl))
        let st := lfSet st HOST_APP_NAME (JVal.str "folio_stripes")
        let st := lfSet st HOST_LOCATION_KEY (stripesCore.jget "location")
        let st := lfSet st REMOTE_LIST_KEY
          (JVal.arr ((discovery.map Prod.snd).filter
            (fun m => !(m.jget "name" == JVal.str "folio_stripes-core"))))
        (st, Except.ok stripesCore)
      | none => (st, Except.error "Could not find stripes-core in discovery data")

/-- The tenant resolution of `createSession` (src/loginServices.js):
`data.originalTenantId || data.tenant || tenant`. -/
def sessionTenant (data : JVal) (tenant : String) : JVal :=
  if (data.jget "originalTenantId").truthy then data.jget "originalTenantId"
  else if (data.jget "tenant").truthy then data.jget "tenant"
  else JVal.str tenant

/-- State touched by `createSession`: the cross-tab string tier
(localStorage) and the durable tier (localforage). -/
structure SessionState where
  localStorage : List (String × String)
  store : LF
deriving DecidableEq

/-- Embedding of `createSession` (src/loginServices.js). `now` models
`Date.now()`; the entitlement/discovery responses parameterise the
`initStripes` continuation. The steps follow the source in order: build
the session from `spreadUserWithPerms` and the payload, set the cross-tab
sentinel, cache the login response, re-read the durable session to reuse
a previously pushed `tokenExpiration` (else parse the payload's, else
fabricate an expired access token with a refresh window 10 minutes out),
persist the session, then run `initStripes`. -/
def createSession (tenant : String) (token : JVal) (data : JVal)
    (config : HubConfig) (now : Int) (entJson customResp : JVal)
    (defaultResps : JVal → JVal) (st : SessionState) :
    SessionState × Except String JVal :=
  let up := spreadUserWithPerms data
  let dte := data.jget "tokenExpiration"
  let tokenExpiration := JVal.obj
    [("atExpires",
      if (dte.jget "accessTokenExpiration").truthy then
        jsDateGetTime (dte.jget "accessTokenExpiration")
      else JVal.num (-1)),
     ("rtExpires",
      if (dte.jget "refreshTokenExpiration").truthy then
        jsDateGetTime (dte.jget "refreshTokenExpiration")
      else JVal.num (now + 10 * 60 * 1000))]
  let session := JVal.obj
    [("token", token), ("isAuthenticated", JVal.bool true), ("user", up.user),
     ("perms", up.perms), ("tenant", sessionTenant data tenant),
     ("tokenExpiration", tokenExpiration)]
  let ls := strSet st.localStorage SESSION_NAME "true"
  let lf := lfSet st.store LOGIN_RESPONSE data
  let sessionData := lfGet lf SESSION_NAME
  let session :=
    if (sessionData.jget "tokenExpiration").truthy then
      JVal.obj (setField (spreadFields session) "tokenExpiration"
        (sessionData.jget "tokenExpiration"))
    else if dte.truthy then
      JVal.obj (setField (spreadFields session) "tokenExpiration"
        (JVal.obj
          [("atExpires", jsDateGetTime (dte.jget "accessTokenExpiration")),
           ("rtExpires", jsDateGetTime (dte.jget "refreshTokenExpiration")),
           ("accessTokenExpiration", dte.jget "accessTokenExpiration"),
           ("refreshTokenExpiration", dte.jget "refreshTokenExpiration")]))
    else
      JVal.obj (setField (spreadFields session) "tokenExpiration"
        (JVal.obj [("atExpires", JVal.num (-1)),
                   ("rtExpires", JVal.num (now + 10 * 60 * 1000))]))
  let lf := lfSet lf SESSION_NAME session
  let (lf, r) := initStripes config entJson customResp defaultResps lf
  ({ localStorage := ls, store := lf }, r)

/-! Reconciliation with orphan reporting (src/StripesHub.js
`fetchDiscovery`). The error handler is modelled by the trace of messages
it receives; `handleWithLog` only logs, so the trace captures exactly the
invocations. Field values of modules that appear several times in the
discovery list may differ from the aliasing JS originals, but keys and
handler invocations are unaffected. -/

/-- The message passed to the orphan handler for a discovery id. -/
def orphanMsg (id : String) : String :=
  "No entitlement found for discovered module ID " ++ id

/-- Iteration of `json.discovery.forEach` in StripesHub's
`fetchDiscovery`: matched entries are knitted (entitlement record plus
`location` and `module`), unmatched entries are reported to the handler. -/
def knitDiscoverySH (uiMap : List (String × JVal)) :
    List JVal → List (String × JVal) → List String →
    Except String (List (String × JVal) × List String)
  | [], map, msgs => Except.ok (map, msgs)
  | entry :: rest, map, msgs =>
    let key := JVal.keyOf (entry.jget "id")
    let cur := (uiMap.lookup key).getD JVal.null
    if cur.truthy then
      match jsetE cur "location" (entry.jget "location") with
      | Except.ok v =>
        match entry.jget "name" with
        | JVal.str s =>
          match jsetE v "module" (JVal.str ("@" ++ jsReplaceFirst s '_' '/')) with
          | Except.ok v => knitDiscoverySH uiMap rest (setField map key v) msgs
          | Except.error e => Except.error e
        | _ => Except.error "TypeError: replace is not a function"
      | Except.error e => Except.error e
    else knitDiscoverySH uiMap rest map (msgs ++ [orphanMsg key])

/-- Embedding of StripesHub's `fetchDiscovery`: knit the discovery
response into the entitlement map `uiMap`, reporting orphans to the
handler; also pick out the host (`folio_stripes-core`) discovery entry the
source caches for later asset loading. -/
def fetchDiscoverySH (json : JVal) (uiMap : List (String × JVal)) :
    Except String ((List (String × JVal) × List String) × Option JVal) := do
  let dlist ← jArr (json.jget "discovery")
  let r ← knitDiscoverySH uiMap dlist [] []
  pure (r, dlist.find? (fun e => e.jget "name" == JVal.str "folio_stripes-core"))

/-! Percent encodings: `encodeURIComponent` (used to build the OIDC
redirect URI) and the `application/x-www-form-urlencoded` serialization
of `URLSearchParams.toString` (used by the token-exchange request), plus
the percent decoding the spec's property applies to the result. -/

/-- UTF-8 bytes of one character. -/
def utf8Bytes (c : Char) : List Nat :=
  let n := c.toNat
  if n < 128 then [n]
  else if n < 2048 then [192 + n / 64, 128 + n % 64]
  else if n < 65536 then [224 + n / 4096, 128 + n / 64 % 64, 128 + n % 64]
  else [240 + n / 262144, 128 + n / 4096 % 64, 128 + n / 64 % 64, 128 + n % 64]

/-- Uppercase hexadecimal digit. -/
def hexDigitChar (n : Nat) : Char :=
  if n < 10 then Char.ofNat (48 + n) else Char.ofNat (55 + n)

/-- Percent-escape of one byte. -/
def pctByte (b : Nat) : String :=
  String.mk ['%', hexDigitChar (b / 16), hexDigitChar (b % 16)]

/-- Characters `encodeURIComponent` leaves unescaped. -/
def isUriUnreserved (c : Char) : Bool :=
  c.isAlphanum || c = '-' || c = '_' || c = '.' || c = '!' ||
    c = '~' || c = '*' || c = Char.ofNat 39 || c = '(' || c = ')'

/-- Models `encodeURIComponent`. -/
def encodeURIComponent (s : String) : String :=
  String.join (s.data.map (fun c =>
    if isUriUnreserved c then String.mk [c]
    else String.join ((utf8Bytes c).map pctByte)))

/-- Characters the `URLSearchParams` serializer leaves unescaped. -/
def isFormUnreserved (c : Char) : Bool :=
  c.isAlphanum || c = '*' || c = '-' || c = '.' || c = '_'

/-- Models the value encoding of `URLSearchParams.toString`. -/
def formEncode (s : String) : String :=
  String.join (s.data.map (fun c =>
    if isFormUnreserved c then String.mk [c]
    else if c = ' ' then "+"
    else String.join ((utf8Bytes c).map pctByte)))

/-- Value of a hexadecimal digit. -/
def hexVal (c : Char) : Option Nat :=
  if c.isDigit then some (c.toNat - 48)
  else if 65 ≤ c.toNat ∧ c.toNat ≤ 70 then some (c.toNat - 55)
  else if 97 ≤ c.toNat ∧ c.toNat ≤ 102 then some (c.toNat - 87)
  else none

/-- Percent-decoding over characters; decoded bytes are mapped directly
to code points (the strings of interest are ASCII). -/
def percentDecodeChars : List Char → List Char
  | '%' :: h1 :: h2 :: rest =>
    match hexVal h1, hexVal h2 with
    | some a, some b => Char.ofNat (16 * a + b) :: percentDecodeChars rest
    | _, _ => '%' :: percentDecodeChars (h1 :: h2 :: rest)
  | c :: rest => c :: percentDecodeChars rest
  | [] => []

/-- Models the percent-decoding the spec applies to a transmitted query
parameter value. -/
def percentDecode (s : String) : String := String.mk (percentDecodeChars s.data)

/-- Suffix test on strings (via the underlying character lists). -/
def strEndsWith (s t : String) : Bool := t.data.isSuffixOf s.data

/-! Logout (src/StripesHub.js `logout`). Navigation (`window.location.href
= getLoginUrl()`) is modelled by the `href` field; the `/authn/logout`
fetch outcome is the `fetchRejects` parameter. The source awaits that
fetch OUTSIDE the try block, so a rejection propagates out of `logout`
before any of the storage removals run; the `Option String` result is the
escaped exception. -/

/-- One entry of `config.tenantOptions` as used by StripesHub. -/
structure TenantOption where
  name : String
  clientId : String
deriving DecidableEq

/-- The `STRIPES_GLOBAL` values consumed by StripesHub. -/
structure StripesGlobal where
  url : String
  authnUrl : String
deriving DecidableEq

/-- The `CONFIG_GLOBAL` values consumed by StripesHub. -/
structure SHConfig where
  tenantOptions : List TenantOption
  preserveConsole : Bool
deriving DecidableEq

/-- Protocol and host of the current page. -/
structure OidcLoc where
  protocol : String
  host : String
deriving DecidableEq

/-- Embedding of `getOIDCRedirectUri` (src/StripesHub.js). -/
def getOIDCRedirectUri (loc : OidcLoc) (tenant clientId : String) : String :=
  encodeURIComponent (loc.protocol ++ "//" ++ loc.host ++
    "/oidc-landing?tenant=" ++ tenant ++ "&client_id=" ++ clientId)

/-- Embedding of `getLoginUrl` (src/StripesHub.js). -/
def getLoginUrl (stripes : StripesGlobal) (loc : OidcLoc) (t : TenantOption) :
    String :=
  stripes.authnUrl ++ "/realms/" ++ t.name ++
    "/protocol/openid-connect/auth?client_id=" ++ t.clientId ++
    "&response_type=code&redirect_uri=" ++
    getOIDCRedirectUri loc t.name t.clientId ++ "&scope=openid"

/-- Per-tab browser state touched by `logout`. -/
structure TabState where
  sessionStorage : List (String × String)
  localStorage : List (String × String)
  store : LF
  href : Option String
deriving DecidableEq

/-- Embedding of `logout` (src/StripesHub.js). -/
def logoutSH (stripes : StripesGlobal) (config : SHConfig) (loc : OidcLoc)
    (fetchRejects : Bool) (st : TabState) : TabState × Option String :=
  match config.tenantOptions with
  | [] => (st, some "TypeError: cannot read properties of undefined")
  | t :: _ =>
    let st := { st with href := some (getLoginUrl stripes loc t) }
    if optTruthy (st.sessionStorage.lookup IS_LOGGING_OUT) then (st, none)
    else if optTruthy (st.localStorage.lookup SESSION_NAME) && fetchRejects then
      (st, some "TypeError: Failed to fetch")
    else
      let st := { st with
        sessionStorage := strSet st.sessionStorage IS_LOGGING_OUT "true" }
      let st := { st with
        localStorage := strRemove (strRemove (strRemove st.localStorage
          SESSION_NAME) RTR_TIMEOUT_EVENT) TENANT_LOCAL_STORAGE_KEY }
      let st := { st with
        store := lfRemove (lfRemove st.store SESSION_NAME) LOGIN_RESPONSE }
      let st := { st with
        sessionStorage := strRemove st.sessionStorage IS_LOGGING_OUT }
      (st, none)

/-! Tenant resolver. Two variants exist in the repository: the URL-only
`getLoginTenant` of src/loginServices.js and the config-aware variant of
the unnamed loginServices file (src/unnamed/part_001), which falls back to
a single-entry `tenantOptions` map with JS `||=` semantics. -/

/-- Resolved tenant identity; `none` models the `null` returned by
`URLSearchParams.get` for an absent parameter (and JS `undefined`). -/
structure LoginTenant where
  name : Option String
  clientId : Option String
deriving DecidableEq

/-- Embedding of `getLoginTenant` (src/loginServices.js): URL query
parameters only. -/
def getLoginTenantHub (search : List (String × String)) : LoginTenant :=
  ⟨search.lookup "tenant", search.lookup "client_id"⟩

/-- One entry of the statically configured tenant map (fields may be
absent). -/
structure TenantOpt where
  name : Option String
  clientId : Option String
deriving DecidableEq

/-- JS `a ||= b` on optional strings: keep `a` when truthy (present and
non-empty), else take `b`. -/
def jsOrElse (v w : Option String) : Option String := if optTruthy v then v else w

/-- Embedding of `getLoginTenant` (src/unnamed/part_001): URL query
parameters first, then — when `tenantOptions` exists and has exactly one
entry — that entry's fields via `||=`. -/
def getLoginTenantCfg (search : List (String × String))
    (tenantOptions : Option (List (String × TenantOpt))) : LoginTenant :=
  let name := search.lookup "tenant"
  let clientId := search.lookup "client_id"
  match tenantOptions with
  | some [(_, opt)] => ⟨jsOrElse name opt.name, jsOrElse clientId opt.clientId⟩
  | _ => ⟨name, clientId⟩

/-! Token exchange (src/components/useExchangeCode.js). -/

/-- Current page location as seen by the exchange-code hook. -/
structure PageLoc where
  protocol : String
  host : String
  search : List (String × String)
deriving DecidableEq

/-- JS template interpolation of a nullable string. -/
def optTemplate : Option String → String
  | some s => s
  | none => "null"

/-- Serialization of `URLSearchParams.toString` over appended pairs. -/
def formEncodeParams (ps : List (String × String)) : String :=
  String.intercalate "&" (ps.map (fun kv => kv.1 ++ "=" ++ formEncode kv.2))

/-- Embedding of the request-construction part of `useExchangeCode`
(src/components/useExchangeCode.js): read `code` from the callback URL,
resolve the tenant from the same URL, build the `code` and `redirect-uri`
parameters and the full `/authn/token` request URL. Missing (or empty,
hence falsy) code fails with the missing-code error. The result carries
the request URL and the raw appended parameter pairs. -/
def exchangeCodeRequest (stripesUrl : String) (loc : PageLoc) :
    Except String (String × List (String × String)) :=
  let code := loc.search.lookup "code"
  let loginTenant := getLoginTenantHub loc.search
  if optTruthy code then
    let params := [("code", code.getD ""),
      ("redirect-uri", loc.protocol ++ "//" ++ loc.host ++
        "/oidc-landing?tenant=" ++ optTemplate loginTenant.name ++
        "&client_id=" ++ optTemplate loginTenant.clientId)]
    Except.ok (stripesUrl ++ "/authn/token?" ++ formEncodeParams params, params)
  else Except.error "stripes-core.oidc.otp.missingCode"

/-! Theorems. Each claim of the specification is settled by exactly one
theorem below (plus a witness instantiation where the theorem carries
hypotheses, and a counterexample where the claim had to be corrected). -/

/-- Payload shell carrying a permission list, as returned by the login /
self-lookup backends. -/
def permPayload (user : JVal) (list : List JVal) : JVal :=
  JVal.obj [("user", user),
    ("permissions", JVal.obj [("permissions", JVal.arr list)])]

/-- A permission name wrapped in the object form of the backend response. -/
def wrapPerm (s : String) : JVal := JVal.obj [("permissionName", JVal.str s)]

theorem permKeyLists (ps : List String) :
    (ps.map JVal.str).map (fun q => (JVal.keyOf q, JVal.bool true)) =
      (ps.map wrapPerm).map
        (fun q => (JVal.keyOf (q.jget "permissionName"), JVal.bool true)) := by
  induction ps with
  | nil => rfl
  | cons p ps ih =>
    simp only [List.map_cons, List.cons.injEq]
    exact ⟨by simp [JVal.keyOf, wrapPerm, JVal.jget, List.lookup], ih⟩

/-- C5: permission normalization is format-invariant — for every list of
permission names, `spreadUserWithPerms` produces the same `perms` mapping
whether the payload lists the names as plain strings or wrapped as
`permissionName` objects. -/
theorem spreadUserWithPerms_format_invariant (ps : List String) (user : JVal) :
    (spreadUserWithPerms (permPayload user (ps.map JVal.str))).perms =
      (spreadUserWithPerms (permPayload user (ps.map wrapPerm))).perms := by
  have hperm : permsFromList (JVal.arr (ps.map JVal.str)) =
      permsFromList (JVal.arr (ps.map wrapPerm)) := by
    cases ps with
    | nil => rfl
    | cons p ps =>
      have h := permKeyLists (p :: ps)
      simp only [List.map_cons] at h
      simp only [permsFromList, wrapPerm, List.map_cons]
      rw [h]
      simp [wrapPerm]
  simp only [spreadUserWithPerms]
  have hl : ∀ l : List JVal,
      ((permPayload user l).jget "permissions").jget "permissions" =
        JVal.arr l := by
    intro l
    simp [permPayload, JVal.jget, List.lookup]
  rw [hl, hl, hperm]

/-- True exactly on a non-empty JS array. -/
def isNonEmptyArr : JVal → Bool
  | JVal.arr (_ :: _) => true
  | _ => false

/-- C10: `spreadUserWithPerms` is total on arbitrary payloads — whenever
`permissions.permissions` is absent, not an array, or empty, the returned
`perms` is the empty mapping; and a missing `user` sub-object yields the
`\x7b id, username \x7d` object with undefined fields rather than a
failure. -/
theorem spreadUserWithPerms_total (p : JVal) :
    (isNonEmptyArr ((p.jget "permissions").jget "permissions") = false →
      (spreadUserWithPerms p).perms = JVal.obj []) ∧
    (p.jget "user" = JVal.null →
      (spreadUserWithPerms p).user =
        JVal.obj [("id", JVal.null), ("username", JVal.null)]) := by
  constructor
  · intro h
    simp only [spreadUserWithPerms]
    rcases hl : (p.jget "permissions").jget "permissions" with _ | b | n | s | elems | fs
    · rfl
    · rfl
    · rfl
    · rfl
    · cases elems with
      | nil => rfl
      | cons q rest => rw [hl] at h; simp [isNonEmptyArr] at h
    · rfl
  · intro h
    simp only [spreadUserWithPerms]
    rw [h]
    simp [JVal.jget, extendFields, spreadFields, setField]

/-- Witness for C10 at the empty-object payload. -/
theorem spreadUserWithPerms_total_witness :
    (spreadUserWithPerms (JVal.obj [])).perms = JVal.obj [] ∧
    (spreadUserWithPerms (JVal.obj [])).user =
      JVal.obj [("id", JVal.null), ("username", JVal.null)] :=
  ⟨(spreadUserWithPerms_total (JVal.obj [])).1 (by decide),
   (spreadUserWithPerms_total (JVal.obj [])).2 (by decide)⟩

theorem lfGet_lfSet_same (st : LF) (k : String) (v : JVal) :
    lfGet (lfSet st k v) k = v := by
  simp [lfGet, lfSet, lookup_setField]

theorem lfGet_lfSet_other (st : LF) (k k' : String) (v : JVal) (h : k' ≠ k) :
    lfGet (lfSet st k v) k' = lfGet st k' := by
  simp [lfGet, lfSet, lookup_setField, h]

theorem jget_obj_spreadFields (v : JVal) (k : String) :
    (JVal.obj (spreadFields v)).jget k = v.jget k := by
  cases v <;> simp [spreadFields, JVal.jget, List.lookup]

theorem setTokenExpiry_ok (te : JVal) (st : LF) (a r : Int)
    (ha : te.jget "atExpires" = JVal.num a)
    (hr : te.jget "rtExpires" = JVal.num r) :
    setTokenExpiry te st = Except.ok (lfSet st SESSION_NAME
      (JVal.obj (setField (spreadFields (lfGet st SESSION_NAME))
        "tokenExpiration"
        (JVal.obj (setField (setField (spreadFields te)
          "accessTokenExpiration" (JVal.str (toISOString a)))
          "refreshTokenExpiration" (JVal.str (toISOString r))))))) := by
  simp [setTokenExpiry, ha, hr, JVal.isIntNum, extendFields]

/-- C3: `setTokenExpiry` fails with the `TypeError` when either field is
not an integer timestamp — and, the throw coming before any `setItem` in
the source, the `Except.error` result carries no storage write; when both
are integers it stores, merged onto the existing session record (all
other fields preserved), a `tokenExpiration` carrying the raw timestamps
and the two derived ISO-8601 strings. -/
theorem setTokenExpiry_spec (te : JVal) (st : LF) :
    ((te.jget "atExpires").isIntNum = false ∨
        (te.jget "rtExpires").isIntNum = false →
      setTokenExpiry te st = Except.error tokenExpiryTypeError) ∧
    (∀ a r : Int, te.jget "atExpires" = JVal.num a →
      te.jget "rtExpires" = JVal.num r →
      ∃ st', setTokenExpiry te st = Except.ok st' ∧
        ((lfGet st' SESSION_NAME).jget "tokenExpiration").jget "atExpires" =
          JVal.num a ∧
        ((lfGet st' SESSION_NAME).jget "tokenExpiration").jget "rtExpires" =
          JVal.num r ∧
        ((lfGet st' SESSION_NAME).jget "tokenExpiration").jget
          "accessTokenExpiration" = JVal.str (toISOString a) ∧
        ((lfGet st' SESSION_NAME).jget "tokenExpiration").jget
          "refreshTokenExpiration" = JVal.str (toISOString r) ∧
        ∀ k, k ≠ "tokenExpiration" →
          (lfGet st' SESSION_NAME).jget k = (lfGet st SESSION_NAME).jget k) := by
  constructor
  · intro h
    rcases h with h | h <;> simp [setTokenExpiry, h]
  · intro a r ha hr
    refine ⟨_, setTokenExpiry_ok te st a r ha hr, ?_, ?_, ?_, ?_, ?_⟩
    · rw [lfGet_lfSet_same, jget_obj_setField, if_pos rfl, jget_obj_setField,
        if_neg (by decide), jget_obj_setField, if_neg (by decide),
        jget_obj_spreadFields, ha]
    · rw [lfGet_lfSet_same, jget_obj_setField, if_pos rfl, jget_obj_setField,
        if_neg (by decide), jget_obj_setField, if_neg (by decide),
        jget_obj_spreadFields, hr]
    · rw [lfGet_lfSet_same, jget_obj_setField, if_pos rfl, jget_obj_setField,
        if_neg (by decide), jget_obj_setField, if_pos rfl]
    · rw [lfGet_lfSet_same, jget_obj_setField, if_pos rfl, jget_obj_setField,
        if_pos rfl]
    · intro k hk
      rw [lfGet_lfSet_same, jget_obj_setField, if_neg hk, jget_obj_spreadFields]

/-- Witness for C3: the spec's own failing input
`\x7b atExpires: "x", rtExpires: 5 \x7d` yields the `TypeError` with no
storage write. -/
theorem setTokenExpiry_witness :
    setTokenExpiry
      (JVal.obj [("atExpires", JVal.str "x"), ("rtExpires", JVal.num 5)])
      ⟨[]⟩ = Except.error tokenExpiryTypeError :=
  (setTokenExpiry_spec
    (JVal.obj [("atExpires", JVal.str "x"), ("rtExpires", JVal.num 5)])
    ⟨[]⟩).1 (Or.inl (by decide))

/-- The spec's reading of the C6 tenant-resolver precedence, written from
the claim's words for comparison with the source's `getLoginTenantCfg`:
(1) a present URL parameter wins outright; (2) else the single entry of
the static map; (3) else undefined. -/
def specTenantField (param : Option String)
    (tenantOptions : Option (List (String × TenantOpt)))
    (proj : TenantOpt → Option String) : Option String :=
  match param with
  | some v => some v
  | none =>
    match tenantOptions with
    | some [(_, opt)] => proj opt
    | _ => none

/-- Counterexample to C6 as stated: on the URL
`?tenant=&client_id=diku-app` the `tenant` parameter is present (with the
empty value), so by the claimed precedence it should win; but the code's
`||=` treats it as falsy and the single-entry static map overrides it. -/
theorem getLoginTenant_c6_counterexample :
    (getLoginTenantCfg [("tenant", ""), ("client_id", "diku-app")]
        (some [("diku", ⟨some "diku", some "diku-app"⟩)])).name =
      some "diku" ∧
    specTenantField
        (List.lookup "tenant" [("tenant", ""), ("client_id", "diku-app")])
        (some [("diku", ⟨some "diku", some "diku-app"⟩)])
        (fun o => o.name) = some "" ∧
    (some "diku" : Option String) ≠ some "" := by decide

/-- The amended C6 resolver, written from the amended claim: precedence
(1) applies only to a parameter yielding a non-empty value; else a
single-entry static map supplies its field; else the raw parameter value
is returned (null/undefined when absent, possibly the empty string). -/
def amendedTenantField (param : Option String)
    (tenantOptions : Option (List (String × TenantOpt)))
    (proj : TenantOpt → Option String) : Option String :=
  if optTruthy param then param
  else
    match tenantOptions with
    | some [(_, opt)] => proj opt
    | _ => param

/-- C6 (amended): for every URL and static configuration, the tenant
resolver returns, independently for the tenant name and the client id,
(1) the `tenant`/`client_id` query parameter when it is present with a
non-empty value, (2) else the single entry of the static tenant map when
it has exactly one entry, (3) else the raw parameter value — null when
the parameter is absent. -/
theorem getLoginTenant_precedence (search : List (String × String))
    (tenantOptions : Option (List (String × TenantOpt))) :
    getLoginTenantCfg search tenantOptions =
      ⟨amendedTenantField (search.lookup "tenant") tenantOptions
        (fun o => o.name),
       amendedTenantField (search.lookup "client_id") tenantOptions
        (fun o => o.clientId)⟩ := by
  cases tenantOptions with
  | none => simp [getLoginTenantCfg, amendedTenantField]
  | some l =>
    cases l with
    | nil => simp [getLoginTenantCfg, amendedTenantField]
    | cons e t =>
      cases t with
      | nil =>
        obtain ⟨k, opt⟩ := e
        simp [getLoginTenantCfg, amendedTenantField, jsOrElse]
      | cons e2 t2 => simp [getLoginTenantCfg, amendedTenantField]

theorem all_not_of_filter (l : List JVal) (p : JVal → Bool) :
    (l.filter (fun m => !(p m))).all (fun m => !(p m)) = true := by
  simp only [List.all_eq_true]
  intro m hm
  exact (List.mem_filter.mp hm).2

/-- C7: whenever `initStripes` succeeds, the remote-module list it
persists under `REMOTE_LIST_KEY` (the list handed to the asset loader)
contains no entry whose name is the reserved host name
`folio_stripes-core`, while the entry handed to `loadStripes` is exactly
the one so named. -/
theorem initStripes_host_excluded (config : HubConfig)
    (entJson customResp : JVal) (defaultResps : JVal → JVal) (st : LF)
    (sc : JVal)
    (h : (initStripes config entJson customResp defaultResps st).2 =
      Except.ok sc) :
    (∃ l, lfGet (initStripes config entJson customResp defaultResps st).1
        REMOTE_LIST_KEY = JVal.arr l ∧
      l.all (fun m => !(m.jget "name" == JVal.str "folio_stripes-core")) =
        true) ∧
    sc.jget "name" = JVal.str "folio_stripes-core" := by
  cases he : fetchEntitlements entJson with
  | error e => simp [initStripes, he] at h
  | ok entitlement =>
    cases hd : fetchDiscovery config entitlement customResp defaultResps with
    | error e => simp [initStripes, he, hd] at h
    | ok discovery =>
      cases hf : (discovery.map Prod.snd).find?
          (fun entry => entry.jget "name" == JVal.str "folio_stripes-core") with
      | none => simp [initStripes, he, hd, hf] at h
      | some v =>
        have hp := List.find?_some hf
        have hv : v.jget "name" = JVal.str "folio_stripes-core" := by
          simpa using hp
        simp only [initStripes, he, hd, hf] at h ⊢
        obtain rfl : v = sc := by
          simpa using h
        refine ⟨⟨(discovery.map Prod.snd).filter
          (fun m => !(m.jget "name" == JVal.str "folio_stripes-core")), ?_,
          all_not_of_filter _ _⟩, hv⟩
        rw [lfGet_lfSet_same]

deriving instance DecidableEq for Except

/-- Concrete entitlement response for the C7 witness: one application with
the stripes-core UI module. -/
def witnessEntJson : JVal :=
  JVal.obj [("applicationDescriptors", JVal.arr [JVal.obj
    [("id", JVal.str "app-platform-1.0.0"),
     ("uiModules", JVal.arr [JVal.obj
       [("id", JVal.str "folio_stripes-core-1.0.0"),
        ("name", JVal.str "folio_stripes-core")]]),
     ("uiModuleDescriptors", JVal.arr [])]])]

/-- Concrete discovery response for the C7 witness. -/
def witnessDiscoJson : JVal :=
  JVal.obj [("discovery", JVal.arr [JVal.obj
    [("id", JVal.str "folio_stripes-core-1.0.0"),
     ("name", JVal.str "folio_stripes-core"),
     ("location", JVal.str "http://core.example.org")]])]

/-- Concrete configuration for the C7 witness (custom discovery URL). -/
def witnessConfig : HubConfig :=
  ⟨"https://gw.example.org", some "https://disco.example.org/modules/discovery"⟩

/-- The host entry the C7 witness run hands to the asset loader. -/
def witnessStripesCore : JVal :=
  JVal.obj [("id", JVal.str "folio_stripes-core-1.0.0"),
    ("name", JVal.str "folio_stripes-core"),
    ("applicationId", JVal.str "app-platform-1.0.0"),
    ("location", JVal.str "http://core.example.org"),
    ("module", JVal.str "@folio/stripes-core")]

/-- Witness for C7: a concrete successful `initStripes` run. -/
theorem initStripes_host_excluded_witness :
    (∃ l, lfGet (initStripes witnessConfig witnessEntJson witnessDiscoJson
        (fun _ => JVal.null) ⟨[]⟩).1 REMOTE_LIST_KEY = JVal.arr l ∧
      l.all (fun m => !(m.jget "name" == JVal.str "folio_stripes-core")) =
        true) ∧
    witnessStripesCore.jget "name" = JVal.str "folio_stripes-core" :=
  initStripes_host_excluded witnessConfig witnessEntJson witnessDiscoJson
    (fun _ => JVal.null) ⟨[]⟩ witnessStripesCore (by decide)

/-- The C9 callback location: `/oidc-landing?code=ABC123&tenant=diku&client_id=diku-app`. -/
def oidcCallbackLoc : PageLoc :=
  ⟨"https:", "folio.example.org",
   [("code", "ABC123"), ("tenant", "diku"), ("client_id", "diku-app")]⟩

set_option maxRecDepth 100000 in
/-- C9: for the callback URL
`/oidc-landing?code=ABC123&tenant=diku&client_id=diku-app`, the token
exchange sends to `/authn/token` the query parameters `code=ABC123` and a
`redirect-uri` whose transmitted (form-encoded) value, when
percent-decoded, is the callback origin plus
`/oidc-landing?tenant=diku&client_id=diku-app` — in particular it ends
with that suffix. -/
theorem exchangeCode_request_c9 :
    ∃ enc,
      exchangeCodeRequest "https://gw.example.org" oidcCallbackLoc =
        Except.ok
          ("https://gw.example.org/authn/token?code=ABC123&redirect-uri=" ++ enc,
           [("code", "ABC123"),
            ("redirect-uri",
             "https://folio.example.org/oidc-landing?tenant=diku&client_id=diku-app")]) ∧
      percentDecode enc =
        "https://folio.example.org/oidc-landing?tenant=diku&client_id=diku-app" ∧
      strEndsWith (percentDecode enc)
        "/oidc-landing?tenant=diku&client_id=diku-app" = true := by
  refine ⟨formEncode
    "https://folio.example.org/oidc-landing?tenant=diku&client_id=diku-app",
    ?_, ?_, ?_⟩
  · decide
  · decide
  · decide

/-- Concrete logged-in tab state for C8: session present in both tiers,
login-response cache and tenant cache present, no logout in progress. -/
def loggedInTab : TabState :=
  { sessionStorage := [],
    localStorage := [(SESSION_NAME, "true"), (TENANT_LOCAL_STORAGE_KEY, "diku")],
    store := ⟨[(SESSION_NAME, JVal.obj [("isAuthenticated", JVal.bool true)]),
               (LOGIN_RESPONSE, JVal.obj [])]⟩,
    href := none }

/-- Concrete globals for the C8 run. -/
def logoutStripes : StripesGlobal :=
  ⟨"https://gw.example.org", "https://authn.example.org"⟩

/-- Concrete configuration for the C8 run. -/
def logoutConfig : SHConfig := ⟨[⟨"diku", "diku-app"⟩], false⟩

/-- Concrete page location for the C8 run. -/
def logoutLoc : OidcLoc := ⟨"https:", "folio.example.org"⟩

/-- C8 (code bug): in `logout` (src/StripesHub.js) the `/authn/logout`
fetch is awaited outside the try block, so when it rejects the exception
propagates before any storage removal runs: the durable session record,
the durable login-response cache, the shared cross-tab sentinel and the
tenant cache all survive — contradicting the spec and the function's own
comments. The same state with a resolving fetch clears all four keys. -/
theorem logout_reject_skips_clearing :
    ((logoutSH logoutStripes logoutConfig logoutLoc true loggedInTab).2.isSome
        = true ∧
      (logoutSH logoutStripes logoutConfig logoutLoc true
        loggedInTab).1.localStorage.lookup SESSION_NAME = some "true" ∧
      (logoutSH logoutStripes logoutConfig logoutLoc true
        loggedInTab).1.localStorage.lookup TENANT_LOCAL_STORAGE_KEY =
        some "diku" ∧
      lfGet (logoutSH logoutStripes logoutConfig logoutLoc true
        loggedInTab).1.store SESSION_NAME ≠ JVal.null ∧
      lfGet (logoutSH logoutStripes logoutConfig logoutLoc true
        loggedInTab).1.store LOGIN_RESPONSE ≠ JVal.null) ∧
    ((logoutSH logoutStripes logoutConfig logoutLoc false
        loggedInTab).2.isSome = false ∧
      (logoutSH logoutStripes logoutConfig logoutLoc false
        loggedInTab).1.localStorage.lookup SESSION_NAME = none ∧
      (logoutSH logoutStripes logoutConfig logoutLoc false
        loggedInTab).1.localStorage.lookup TENANT_LOCAL_STORAGE_KEY = none ∧
      lfGet (logoutSH logoutStripes logoutConfig logoutLoc false
        loggedInTab).1.store SESSION_NAME = JVal.null ∧
      lfGet (logoutSH logoutStripes logoutConfig logoutLoc false
        loggedInTab).1.store LOGIN_RESPONSE = JVal.null) := by
  decide

theorem initStripes_preserves_session_key (config : HubConfig)
    (entJson customResp : JVal) (defaultResps : JVal → JVal) (st : LF) :
    lfGet (initStripes config entJson customResp defaultResps st).1
      SESSION_NAME = lfGet st SESSION_NAME := by
  cases he : fetchEntitlements entJson with
  | error e => simp [initStripes, he]
  | ok entitlement =>
    cases hd : fetchDiscovery config entitlement customResp defaultResps with
    | error e => simp [initStripes, he, hd]
    | ok discovery =>
      cases hf : (discovery.map Prod.snd).find?
          (fun entry => entry.jget "name" == JVal.str "folio_stripes-core") with
      | none => simp [initStripes, he, hd, hf]
      | some v =>
        simp [initStripes, he, hd, hf, lfGet_lfSet_other, SESSION_NAME,
          DISCOVERY_URL_KEY, HOST_APP_NAME, HOST_LOCATION_KEY, REMOTE_LIST_KEY]

/-- True exactly on a non-empty string value. -/
def isNonEmptyStr : JVal → Bool
  | JVal.str s => s != ""
  | _ => false

/-- Counterexample to C2 as stated: `createSession` applied to an empty
payload and an empty tenant argument persists a session record that has
`isAuthenticated: true` while its `user.id` is undefined and its `tenant`
is the empty string — the code validates neither field. -/
theorem createSession_c2_counterexample :
    (lfGet (createSession "" JVal.null (JVal.obj []) ⟨"h", none⟩ 0
        JVal.null JVal.null (fun _ => JVal.null) ⟨[], ⟨[]⟩⟩).1.store
      SESSION_NAME).jget "isAuthenticated" = JVal.bool true ∧
    ((lfGet (createSession "" JVal.null (JVal.obj []) ⟨"h", none⟩ 0
        JVal.null JVal.null (fun _ => JVal.null) ⟨[], ⟨[]⟩⟩).1.store
      SESSION_NAME).jget "user").jget "id" = JVal.null ∧
    isNonEmptyStr ((lfGet (createSession "" JVal.null (JVal.obj []) ⟨"h", none⟩
        0 JVal.null JVal.null (fun _ => JVal.null) ⟨[], ⟨[]⟩⟩).1.store
      SESSION_NAME).jget "tenant") = false := by
  decide

theorem createSession_stored (tenant : String) (token data : JVal)
    (config : HubConfig) (now : Int) (entJson customResp : JVal)
    (defaultResps : JVal → JVal) (st : SessionState) :
    ∃ texp,
      lfGet (createSession tenant token data config now entJson customResp
          defaultResps st).1.store SESSION_NAME =
        JVal.obj (setField
          [("token", token), ("isAuthenticated", JVal.bool true),
           ("user", (spreadUserWithPerms data).user),
           ("perms", (spreadUserWithPerms data).perms),
           ("tenant", sessionTenant data tenant),
           ("tokenExpiration", JVal.obj
             [("atExpires",
               if ((data.jget "tokenExpiration").jget
                   "accessTokenExpiration").truthy then
                 jsDateGetTime ((data.jget "tokenExpiration").jget
                   "accessTokenExpiration")
               else JVal.num (-1)),
              ("rtExpires",
               if ((data.jget "tokenExpiration").jget
                   "refreshTokenExpiration").truthy then
                 jsDateGetTime ((data.jget "tokenExpiration").jget
                   "refreshTokenExpiration")
               else JVal.num (now + 10 * 60 * 1000))])]
          "tokenExpiration" texp) := by
  simp only [createSession]
  rw [initStripes_preserves_session_key, lfGet_lfSet_same]
  refine ⟨(if ((lfGet (lfSet st.store LOGIN_RESPONSE data)
        SESSION_NAME).jget "tokenExpiration").truthy then
      (lfGet (lfSet st.store LOGIN_RESPONSE data) SESSION_NAME).jget
        "tokenExpiration"
    else if (data.jget "tokenExpiration").truthy then
      JVal.obj [("atExpires",
          jsDateGetTime ((data.jget "tokenExpiration").jget
            "accessTokenExpiration")),
        ("rtExpires",
          jsDateGetTime ((data.jget "tokenExpiration").jget
            "refreshTokenExpiration")),
        ("accessTokenExpiration",
          (data.jget "tokenExpiration").jget "accessTokenExpiration"),
        ("refreshTokenExpiration",
          (data.jget "tokenExpiration").jget "refreshTokenExpiration")]
    else JVal.obj [("atExpires", JVal.num (-1)),
      ("rtExpires", JVal.num (now + 10 * 60 * 1000))]), ?_⟩
  split_ifs <;> simp [spreadFields]

/-- C2 (amended): every session record persisted by `createSession` has
`isAuthenticated` unconditionally `true`, with `user` and `tenant` copied
unvalidated from the payload and arguments — so the invariant "user.id
and tenant non-empty" holds precisely when the computed user id and the
resolved tenant are non-empty; and `setTokenExpiry`, the only later
update of the session key, preserves every field other than
`tokenExpiration`. -/
theorem createSession_invariant_amended :
    (∀ (tenant : String) (token data : JVal) (config : HubConfig) (now : Int)
        (entJson customResp : JVal) (defaultResps : JVal → JVal)
        (st : SessionState),
      (lfGet (createSession tenant token data config now entJson customResp
          defaultResps st).1.store SESSION_NAME).jget "isAuthenticated" =
        JVal.bool true ∧
      (lfGet (createSession tenant token data config now entJson customResp
          defaultResps st).1.store SESSION_NAME).jget "user" =
        (spreadUserWithPerms data).user ∧
      (lfGet (createSession tenant token data config now entJson customResp
          defaultResps st).1.store SESSION_NAME).jget "tenant" =
        sessionTenant data tenant ∧
      (isNonEmptyStr ((spreadUserWithPerms data).user.jget "id") = true ∧
          isNonEmptyStr (sessionTenant data tenant) = true →
        isNonEmptyStr (((lfGet (createSession tenant token data config now
            entJson customResp defaultResps st).1.store SESSION_NAME).jget
          "user").jget "id") = true ∧
        isNonEmptyStr ((lfGet (createSession tenant token data config now
            entJson customResp defaultResps st).1.store SESSION_NAME).jget
          "tenant") = true)) ∧
    (∀ (te : JVal) (st : LF) (a r : Int) (st' : LF),
      te.jget "atExpires" = JVal.num a → te.jget "rtExpires" = JVal.num r →
      setTokenExpiry te st = Except.ok st' →
      ∀ k, k ≠ "tokenExpiration" →
        (lfGet st' SESSION_NAME).jget k = (lfGet st SESSION_NAME).jget k) := by
  constructor
  · intro tenant token data config now entJson customResp defaultResps st
    obtain ⟨texp, hs⟩ := createSession_stored tenant token data config now
      entJson customResp defaultResps st
    have h1 : (lfGet (createSession tenant token data config now entJson
        customResp defaultResps st).1.store SESSION_NAME).jget
        "isAuthenticated" = JVal.bool true := by
      rw [hs, jget_obj_setField _ "tokenExpiration" "isAuthenticated" texp,
        if_neg (show ("isAuthenticated" : String) ≠ "tokenExpiration" by
          decide)]
      simp [JVal.jget, List.lookup]
    have h2 : (lfGet (createSession tenant token data config now entJson
        customResp defaultResps st).1.store SESSION_NAME).jget "user" =
        (spreadUserWithPerms data).user := by
      rw [hs, jget_obj_setField _ "tokenExpiration" "user" texp,
        if_neg (show ("user" : String) ≠ "tokenExpiration" by decide)]
      simp [JVal.jget, List.lookup]
    have h3 : (lfGet (createSession tenant token data config now entJson
        customResp defaultResps st).1.store SESSION_NAME).jget "tenant" =
        sessionTenant data tenant := by
      rw [hs, jget_obj_setField _ "tokenExpiration" "tenant" texp,
        if_neg (show ("tenant" : String) ≠ "tokenExpiration" by decide)]
      simp [JVal.jget, List.lookup]
    exact ⟨h1, h2, h3,
      fun h => ⟨by rw [h2]; exact h.1, by rw [h3]; exact h.2⟩⟩
  · intro te st a r st' ha hr hok
    rw [setTokenExpiry_ok te st a r ha hr] at hok
    obtain rfl : st' = _ := (Except.ok.injEq _ _).mp hok.symm
    intro k hk
    rw [lfGet_lfSet_same, jget_obj_setField, if_neg hk, jget_obj_spreadFields]

/-- The payload of the C2 amended witness: a user with a non-empty id and
a non-empty payload tenant. -/
def c2payload : JVal :=
  JVal.obj [("user", JVal.obj [("id", JVal.str "user-1")]),
    ("tenant", JVal.str "diku")]

/-- Witness for the amended C2: a concrete `createSession` run with
non-empty inputs persists a record with non-empty `user.id` and
`tenant`. -/
theorem createSession_invariant_amended_witness :
    isNonEmptyStr (((lfGet (createSession "diku" JVal.null c2payload
        ⟨"h", none⟩ 0 JVal.null JVal.null (fun _ => JVal.null)
        ⟨[], ⟨[]⟩⟩).1.store SESSION_NAME).jget "user").jget "id") = true ∧
    isNonEmptyStr ((lfGet (createSession "diku" JVal.null c2payload
        ⟨"h", none⟩ 0 JVal.null JVal.null (fun _ => JVal.null)
        ⟨[], ⟨[]⟩⟩).1.store SESSION_NAME).jget "tenant") = true :=
  (createSession_invariant_amended.1 "diku" JVal.null c2payload ⟨"h", none⟩ 0
    JVal.null JVal.null (fun _ => JVal.null) ⟨[], ⟨[]⟩⟩).2.2.2
    ⟨by decide, by decide⟩

/-- C4: when no previously-cached `tokenExpiration` exists under the
session key and the payload carries no expiration data, the session
persisted by `createSession` carries the already-expired sentinel
`atExpires = -1` and an `rtExpires` strictly greater than the `Date.now()`
value observed during the call. -/
theorem createSession_default_expiry (tenant : String) (token data : JVal)
    (config : HubConfig) (now : Int) (entJson customResp : JVal)
    (defaultResps : JVal → JVal) (st : SessionState)
    (hcached : ((lfGet st.store SESSION_NAME).jget "tokenExpiration").truthy =
      false)
    (hpayload : (data.jget "tokenExpiration").truthy = false) :
    ((lfGet (createSession tenant token data config now entJson customResp
        defaultResps st).1.store SESSION_NAME).jget "tokenExpiration").jget
      "atExpires" = JVal.num (-1) ∧
    ∃ r : Int,
      ((lfGet (createSession tenant token data config now entJson customResp
          defaultResps st).1.store SESSION_NAME).jget "tokenExpiration").jget
        "rtExpires" = JVal.num r ∧ now < r := by
  simp only [createSession]
  rw [initStripes_preserves_session_key, lfGet_lfSet_same]
  rw [lfGet_lfSet_other st.store LOGIN_RESPONSE SESSION_NAME data (by decide)]
  rw [hcached]
  simp only [hpayload, Bool.false_eq_true, if_false]
  rw [jget_obj_setField, if_pos rfl]
  refine ⟨?_, now + 10 * 60 * 1000, ?_, by omega⟩
  · simp [JVal.jget, List.lookup]
  · simp [JVal.jget, List.lookup]

/-- Witness for C4: a concrete `createSession` run with empty storage and
an empty payload at `now = 0`. -/
theorem createSession_default_expiry_witness :
    ((lfGet (createSession "diku" JVal.null (JVal.obj []) ⟨"h", none⟩ 0
        JVal.null JVal.null (fun _ => JVal.null) ⟨[], ⟨[]⟩⟩).1.store
      SESSION_NAME).jget "tokenExpiration").jget "atExpires" =
      JVal.num (-1) ∧
    ∃ r : Int,
      ((lfGet (createSession "diku" JVal.null (JVal.obj []) ⟨"h", none⟩ 0
          JVal.null JVal.null (fun _ => JVal.null) ⟨[], ⟨[]⟩⟩).1.store
        SESSION_NAME).jget "tokenExpiration").jget "rtExpires" =
        JVal.num r ∧ (0 : Int) < r :=
  createSession_default_expiry "diku" JVal.null (JVal.obj []) ⟨"h", none⟩ 0
    JVal.null JVal.null (fun _ => JVal.null) ⟨[], ⟨[]⟩⟩ (by decide) (by decide)

theorem mem_keys_setField (fs : List (String × JVal)) (k k' : String)
    (v : JVal) :
    k' ∈ (setField fs k v).map Prod.fst ↔
      (k' = k ∨ k' ∈ fs.map Prod.fst) := by
  induction fs with
  | nil => simp [setField]
  | cons kv fs ih =>
    obtain ⟨k₀, v₀⟩ := kv
    by_cases h : k₀ = k
    · subst h
      simp [setField]
    · simp [setField, h, ih]
      tauto

theorem lookup_none_iff (l : List (String × JVal)) (k : String) :
    l.lookup k = none ↔ k ∉ l.map Prod.fst := by
  induction l with
  | nil => simp [List.lookup]
  | cons kv l ih =>
    obtain ⟨k₀, v₀⟩ := kv
    by_cases h : k = k₀
    · subst h
      simp [List.lookup]
    · have hb : (k == k₀) = false := beq_eq_false_iff_ne.mpr h
      simp [List.lookup, hb, ih, h]

theorem mem_of_lookup_eq_some {l : List (String × JVal)} {k : String}
    {v : JVal} (h : l.lookup k = some v) : (k, v) ∈ l := by
  induction l with
  | nil => simp [List.lookup] at h
  | cons kv l ih =>
    obtain ⟨k₀, v₀⟩ := kv
    by_cases hk : k = k₀
    · subst hk
      simp [List.lookup] at h
      subst h
      exact List.mem_cons_self _ _
    · have hb : (k == k₀) = false := beq_eq_false_iff_ne.mpr hk
      simp [List.lookup, hb] at h
      exact List.mem_cons_of_mem _ (ih h)

theorem knitDiscoverySH_spec (uiMap : List (String × JVal))
    (hmods : ∀ kv ∈ uiMap, (kv.2).isObj = true) (dlist : List JVal)
    (hnames : ∀ e ∈ dlist, (e.jget "name").isStr = true)
    (map : List (String × JVal)) (msgs : List String) :
    ∃ map' msgs',
      knitDiscoverySH uiMap dlist map msgs = Except.ok (map', msgs') ∧
      (∀ k, k ∈ map'.map Prod.fst ↔
        (k ∈ map.map Prod.fst ∨
          (k ∈ dlist.map (fun e => JVal.keyOf (e.jget "id")) ∧
           k ∈ uiMap.map Prod.fst))) ∧
      msgs' = msgs ++ (dlist.filter (fun e =>
        !((uiMap.lookup (JVal.keyOf (e.jget "id"))).getD
          JVal.null).truthy)).map
        (fun e => orphanMsg (JVal.keyOf (e.jget "id"))) := by
  induction dlist generalizing map msgs with
  | nil => exact ⟨map, msgs, rfl, by simp, by simp⟩
  | cons entry rest ih =>
    have hnames' : ∀ e ∈ rest, (e.jget "name").isStr = true :=
      fun e he => hnames e (List.mem_cons_of_mem _ he)
    by_cases htr :
        ((uiMap.lookup (JVal.keyOf (entry.jget "id"))).getD JVal.null).truthy
          = true
    · cases hlk : uiMap.lookup (JVal.keyOf (entry.jget "id")) with
      | none => rw [hlk] at htr; simp [JVal.truthy] at htr
      | some cur =>
        have hobj : cur.isObj = true :=
          hmods (JVal.keyOf (entry.jget "id"), cur) (mem_of_lookup_eq_some hlk)
        obtain ⟨fs, rfl⟩ : ∃ fs, cur = JVal.obj fs := by
          cases cur <;> simp [JVal.isObj] at hobj ⊢
        have hname : (entry.jget "name").isStr = true :=
          hnames entry (List.mem_cons_self _ _)
        obtain ⟨s, hnm⟩ : ∃ s, entry.jget "name" = JVal.str s := by
          cases h : entry.jget "name" <;> rw [h] at hname <;>
            simp [JVal.isStr] at hname ⊢
        have hstep : knitDiscoverySH uiMap (entry :: rest) map msgs =
            knitDiscoverySH uiMap rest
              (setField map (JVal.keyOf (entry.jget "id"))
                (JVal.obj (setField
                  (setField fs "location" (entry.jget "location"))
                  "module"
                  (JVal.str ("@" ++ jsReplaceFirst s '_' '/'))))) msgs := by
          simp [knitDiscoverySH, hlk, htr, jsetE, hnm, JVal.truthy]
        rw [hstep]
        obtain ⟨map', msgs', hrun, hkeys, hmsgs⟩ := ih hnames' _ msgs
        have hkmem : JVal.keyOf (entry.jget "id") ∈ uiMap.map Prod.fst := by
          by_contra hno
          have := (lookup_none_iff uiMap (JVal.keyOf (entry.jget "id"))).mpr
            hno
          rw [hlk] at this
          cases this
        refine ⟨map', msgs', hrun, ?_, ?_⟩
        · intro k
          rw [hkeys k, mem_keys_setField]
          simp only [List.map_cons, List.mem_cons]
          constructor
          · rintro ((rfl | hm) | ⟨hr, hu⟩)
            · exact Or.inr ⟨Or.inl rfl, hkmem⟩
            · exact Or.inl hm
            · exact Or.inr ⟨Or.inr hr, hu⟩
          · rintro (hm | ⟨(rfl | hr), hu⟩)
            · exact Or.inl (Or.inr hm)
            · exact Or.inl (Or.inl rfl)
            · exact Or.inr ⟨hr, hu⟩
        · rw [hmsgs]
          simp [List.filter_cons, htr]
    · have hstep : knitDiscoverySH uiMap (entry :: rest) map msgs =
          knitDiscoverySH uiMap rest map
            (msgs ++ [orphanMsg (JVal.keyOf (entry.jget "id"))]) := by
        simp [knitDiscoverySH, htr]
      rw [hstep]
      obtain ⟨map', msgs', hrun, hkeys, hmsgs⟩ := ih hnames' map _
      have hno : JVal.keyOf (entry.jget "id") ∉ uiMap.map Prod.fst := by
        cases hlk : uiMap.lookup (JVal.keyOf (entry.jget "id")) with
        | none => exact (lookup_none_iff uiMap _).mp hlk
        | some cur =>
          exfalso
          have hobj : cur.isObj = true :=
            hmods (JVal.keyOf (entry.jget "id"), cur)
              (mem_of_lookup_eq_some hlk)
          apply htr
          rw [hlk]
          cases cur <;> simp_all [JVal.isObj, JVal.truthy]
      refine ⟨map', msgs', hrun, ?_, ?_⟩
      · intro k
        rw [hkeys k]
        simp only [List.map_cons, List.mem_cons]
        constructor
        · rintro (hm | ⟨hr, hu⟩)
          · exact Or.inl hm
          · exact Or.inr ⟨Or.inr hr, hu⟩
        · rintro (hm | ⟨(rfl | hr), hu⟩)
          · exact Or.inl hm
          · exact absurd hu hno
          · exact Or.inr ⟨hr, hu⟩
      · rw [hmsgs]
        simp [List.filter_cons, htr]

/-- C1: for every entitlement map (holding module objects) and every
discovery response (whose entries carry string names), StripesHub's
reconciliation succeeds and returns a manifest whose key set is exactly
the intersection of the entitlement ids and the discovery ids, while the
orphan handler is invoked exactly once per discovery entry that has no
entitlement, with that entry's id in the message — in iteration order. -/
theorem fetchDiscoverySH_reconciliation (uiMap : List (String × JVal))
    (dlist : List JVal)
    (hmods : ∀ kv ∈ uiMap, (kv.2).isObj = true)
    (hnames : ∀ e ∈ dlist, (e.jget "name").isStr = true) :
    ∃ map msgs core,
      fetchDiscoverySH (JVal.obj [("discovery", JVal.arr dlist)]) uiMap =
        Except.ok ((map, msgs), core) ∧
      (∀ k, k ∈ map.map Prod.fst ↔
        (k ∈ dlist.map (fun e => JVal.keyOf (e.jget "id")) ∧
         k ∈ uiMap.map Prod.fst)) ∧
      msgs = (dlist.filter (fun e =>
        !((uiMap.lookup (JVal.keyOf (e.jget "id"))).getD
          JVal.null).truthy)).map
        (fun e => orphanMsg (JVal.keyOf (e.jget "id"))) := by
  obtain ⟨map', msgs', hrun, hkeys, hmsgs⟩ :=
    knitDiscoverySH_spec uiMap hmods dlist hnames [] []
  refine ⟨map', msgs',
    dlist.find? (fun e => e.jget "name" == JVal.str "folio_stripes-core"),
    ?_, ?_, by simpa using hmsgs⟩
  · rw [show fetchDiscoverySH (JVal.obj [("discovery", JVal.arr dlist)])
        uiMap =
      Except.bind (knitDiscoverySH uiMap dlist [] [])
        (fun r => Except.ok (r, dlist.find?
          (fun e => e.jget "name" == JVal.str "folio_stripes-core")))
      from rfl, hrun]
    rfl
  · intro k
    simpa using hkeys k

/-- Entitlement map for the C1 witness: ids A, B, C. -/
def c1UiMap : List (String × JVal) :=
  [("A", JVal.obj [("name", JVal.str "folio_a")]),
   ("B", JVal.obj [("name", JVal.str "folio_b")]),
   ("C", JVal.obj [("name", JVal.str "folio_c")])]

/-- Discovery entries for the C1 witness: ids B, C, D. -/
def c1Discovery : List JVal :=
  [JVal.obj [("id", JVal.str "B"), ("name", JVal.str "folio_b"),
     ("location", JVal.str "http://b.example.org")],
   JVal.obj [("id", JVal.str "C"), ("name", JVal.str "folio_c"),
     ("location", JVal.str "http://c.example.org")],
   JVal.obj [("id", JVal.str "D"), ("name", JVal.str "folio_d"),
     ("location", JVal.str "http://d.example.org")]]

/-- Witness for C1 at the claim's own example: Entitlement ids
`\x7bA,B,C\x7d` and Discovery ids `\x7bB,C,D\x7d` give a manifest keyed by
exactly `\x7bB,C\x7d` and exactly one orphan-handler invocation, with
`D`. -/
theorem fetchDiscoverySH_reconciliation_witness :
    ∃ map msgs core,
      fetchDiscoverySH (JVal.obj [("discovery", JVal.arr c1Discovery)])
        c1UiMap = Except.ok ((map, msgs), core) ∧
      (∀ k, k ∈ map.map Prod.fst ↔
        (k ∈ ["B", "C", "D"] ∧ k ∈ ["A", "B", "C"])) ∧
      msgs = [orphanMsg "D"] :=
  fetchDiscoverySH_reconciliation c1UiMap c1Discovery (by decide) (by decide)
